import Mathlib

/-!
Verification of the review sentiment service (`src/app.py`).

The development shallowly embeds the three core components of the program:

* `SentimentChecker.check` — the keyword-matching classifier;
* `ReviewRepository` (`insert`, `fetch_all`, `fetch_by_sentiment`) — the
  SQLite-backed store, modelled as a functional state `DB`;
* `ReviewService` (`add_review`, `get_reviews_by_sentiment`).

Text is modelled as `List Char` (one entry per Unicode code point, as in a
Python `str`).
-/

/-- Models Python `str.lower` character-wise on the ranges this program can
distinguish: ASCII capital letters and the basic Cyrillic capital block
(У+0410–У+042F and Ё) are mapped to their lowercase forms; every other
character is left unchanged.  The markers of `SentimentChecker` consist only
of basic Cyrillic lowercase letters, so this restriction is faithful for
marker matching. -/
def lowerChar (c : Char) : Char :=
  if 'A' ≤ c ∧ c ≤ 'Z' then Char.ofNat (c.toNat + 32)
  else if 0x410 ≤ c.toNat ∧ c.toNat ≤ 0x42F then Char.ofNat (c.toNat + 32)
  else if c.toNat = 0x401 then Char.ofNat 0x451
  else c

/-- Checks whether `pat` occurs at the very start of `s` (the prefix test used
by the substring scan below). -/
def startsWith : List Char → List Char → Bool
  | [], _ => true
  | _ :: _, [] => false
  | p :: ps, c :: cs => p == c && startsWith ps cs

/-- Scans the text left to right, counting non-overlapping occurrences of the
non-empty pattern `pat`, exactly as CPython's `str.count` does: after a match
the scan resumes right after the matched block.  The second argument is the
number of positions still covered by the last match, at which no new match is
counted. -/
def countAux (pat : List Char) : List Char → Nat → Nat
  | [], _ => 0
  | c :: rest, 0 =>
    if startsWith pat (c :: rest) then
      1 + countAux pat rest (pat.length - 1)
    else
      countAux pat rest 0
  | _ :: rest, k + 1 => countAux pat rest k

/-- Counts the non-overlapping occurrences of `pat` in a text, starting the
scan outside any match. -/
def countOcc (pat : List Char) (s : List Char) : Nat :=
  countAux pat s 0

/-- Models Python `s.count(pat)`: the number of non-overlapping occurrences of
`pat` in `s`; an empty pattern counts `s.length + 1` as in CPython. -/
def count (s pat : List Char) : Nat :=
  if pat.length = 0 then s.length + 1 else countOcc pat s

namespace SentimentChecker

/-- The `POSITIVE` marker list of `SentimentChecker` in `src/app.py`. -/
def POSITIVE : List (List Char) :=
  [['х', 'о', 'р', 'о', 'ш'], ['л', 'ю', 'б', 'л', 'ю']]

/-- The `NEGATIVE` marker list of `SentimentChecker` in `src/app.py`. -/
def NEGATIVE : List (List Char) :=
  [['п', 'л', 'о', 'х', 'о'], ['н', 'е', 'н', 'а', 'в', 'и', 'ж']]

/-- Embeds `SentimentChecker.check`: lowercase the text, sum the marker
occurrence counts on each side, then apply the comparison chain. -/
def check (text : List Char) : String :=
  let lowered := text.map lowerChar
  let pos_count := (POSITIVE.map (fun p => count lowered p)).sum
  let neg_count := (NEGATIVE.map (fun n => count lowered n)).sum
  if pos_count > neg_count then "positive"
  else if neg_count > pos_count then "negative"
  else "neutral"

end SentimentChecker

/-- The total positive-marker occurrence count of a text (the value
`pos_count` computed inside `check`). -/
def posCount (text : List Char) : Nat :=
  (SentimentChecker.POSITIVE.map (fun p => count (text.map lowerChar) p)).sum

/-- The total negative-marker occurrence count of a text (the value
`neg_count` computed inside `check`). -/
def negCount (text : List Char) : Nat :=
  (SentimentChecker.NEGATIVE.map (fun n => count (text.map lowerChar) n)).sum

/-- Embeds the `Review` dataclass of `src/app.py`: `id` is `None` until the
repository assigns it. -/
structure Review where
  text : List Char
  sentiment : String
  created_at : String
  id : Option Nat := none
deriving DecidableEq, Repr

/-- One row of the `reviews` table: every column is `NOT NULL` and `id` is the
integer primary key. -/
structure Row where
  id : Nat
  text : List Char
  sentiment : String
  created_at : String
deriving DecidableEq, Repr

/-- The durable state realised by the SQLite database: the rows of the
`reviews` table in rowid order, and the `AUTOINCREMENT` sequence value (the
largest identity ever assigned; the table never deletes, so the next rowid is
always `seq + 1`). -/
structure DB where
  rows : List Row
  seq : Nat
deriving DecidableEq, Repr

/-- Embeds `init_db`: a fresh database holds no rows and has never assigned
an identity. -/
def init_db : DB := { rows := [], seq := 0 }

/-- The error used when the durable medium fails.  `src/app.py` lets the
driver's exception propagate; the spec names this conditiion `StorageError`. -/
inductive StorageError where
  | unavailable
deriving DecidableEq, Repr

/-- Converts a fetched row back into a `Review` object, as
`Review(**dict(row))` does in the two fetch methods. -/
def rowToReview (r : Row) : Review :=
  { text := r.text, sentiment := r.sentiment, created_at := r.created_at,
    id := some r.id }

/-- Embeds `ReviewRepository.insert`.  On success the row is appended with
the next `AUTOINCREMENT` identity and the review comes back with its `id`
field set from `cursor.lastrowid`.  The failure branch is modelled from the
spec: whether the commit succeeds is decided by the durable medium (SQLite),
which is outside `src/`; the spec requires that a failed `append` raises
`StorageError`, stores nothing and consumes no identity, which matches
SQLite rolling back the uncommitted transaction (including its
`sqlite_sequence` update).  The `ok` flag stands for that external outcome. -/
def insert (ok : Bool) (db : DB) (review : Review) :
    DB × Except StorageError Review :=
  if ok then
    let newId := db.seq + 1
    ({ rows := db.rows ++
         [{ id := newId, text := review.text, sentiment := review.sentiment,
            created_at := review.created_at }],
       seq := newId },
     Except.ok { review with id := some newId })
  else
    (db, Except.error StorageError.unavailable)

/-- Embeds `ReviewRepository.fetch_all`: `SELECT * FROM reviews` scans the
table in rowid order (the query has no `ORDER BY`; for this schema SQLite
returns the rowid scan, i.e. insertion order, since rows are never
deleted). -/
def fetch_all (db : DB) : List Review :=
  db.rows.map rowToReview

/-- Embeds `ReviewRepository.fetch_by_sentiment`:
`SELECT * FROM reviews WHERE sentiment = ?`, same scan order. -/
def fetch_by_sentiment (db : DB) (sentiment : String) : List Review :=
  (db.rows.filter (fun r => r.sentiment == sentiment)).map rowToReview

/-- Embeds `ReviewService.add_review`: classify the text, build the review
with the caller-observed timestamp `now` (`datetime.utcnow().isoformat()` is
an external input to the core), insert it, and hand back the repository's
outcome unchanged (there is no `try`/`except` and no retry in the source). -/
def add_review (ok : Bool) (db : DB) (text : List Char) (now : String) :
    DB × Except StorageError Review :=
  let sentiment := SentimentChecker.check text
  let review : Review := { text := text, created_at := now, sentiment := sentiment }
  insert ok db review

/-- Embeds `ReviewService.get_reviews_by_sentiment`: the empty string (the
only falsy `str`) selects everything, any other string filters. -/
def get_reviews_by_sentiment (db : DB) (sentiment : String) : List Review :=
  if sentiment = "" then fetch_all db
  else fetch_by_sentiment db sentiment

/-- One external call to `add_review`: the submitted text, the observed
timestamp, and whether the durable medium committed. -/
structure AddEvent where
  text : List Char
  now : String
  ok : Bool
deriving DecidableEq, Repr

/-- Runs a sequence of `add_review` calls against a database, keeping the
resulting state. -/
def runAdds (db : DB) (events : List AddEvent) : DB :=
  events.foldl (fun d e => (add_review e.ok d e.text e.now).1) db

/-- Runs a sequence of successful `add_review` calls (text and timestamp per
call, the medium committing every time). -/
def runAddsOk (db : DB) (events : List (List Char × String)) : DB :=
  events.foldl (fun d e => (add_review true d e.1 e.2).1) db

/-- The rows that a run of successful appends starting at sequence value
`seq` must produce, one per event in order. -/
def buildRows (seq : Nat) : List (List Char × String) → List Row
  | [] => []
  | (t, n) :: rest =>
    { id := seq + 1, text := t, sentiment := SentimentChecker.check t,
      created_at := n } :: buildRows (seq + 1) rest

/-! Helper lemmas shared by the claim theorems. -/

example : SentimentChecker.check ['х', 'о', 'р', 'о', 'ш'] = "positive" := by decide
example : SentimentChecker.check ['п', 'л', 'о', 'х', 'о'] = "negative" := by decide
example : SentimentChecker.check [] = "neutral" := by decide

/-- Shared unfolding lemma: `check` is exactly the decision rule applied to
the two marker counts. -/
theorem check_eq_counts (text : List Char) :
    SentimentChecker.check text =
      if posCount text > negCount text then "positive"
      else if negCount text > posCount text then "negative"
      else "neutral" := rfl

/-- Shared unfolding lemma: a committed `add_review` appends the classified
row and returns the review with the fresh identity. -/
theorem add_review_true_eq (db : DB) (text : List Char) (now : String) :
    add_review true db text now =
      ({ rows := db.rows ++
           [{ id := db.seq + 1, text := text,
              sentiment := SentimentChecker.check text, created_at := now }],
         seq := db.seq + 1 },
       Except.ok { text := text, sentiment := SentimentChecker.check text,
                   created_at := now, id := some (db.seq + 1) }) := rfl

/-- Shared lemma: the rows after an `add_review` call, in both outcomes. -/
theorem add_review_rows (ok : Bool) (db : DB) (text : List Char) (now : String) :
    ((add_review ok db text now).1).rows =
      if ok then
        db.rows ++ [{ id := db.seq + 1, text := text,
                      sentiment := SentimentChecker.check text, created_at := now }]
      else db.rows := by
  cases ok <;> rfl

/-- Shared invariant: running `add_review` calls preserves the property that
every stored row's sentiment is the classifier's output on its text. -/
theorem runAdds_sentiment (events : List AddEvent) :
    ∀ db : DB,
      (∀ row ∈ db.rows, row.sentiment = SentimentChecker.check row.text) →
      ∀ row ∈ (runAdds db events).rows,
        row.sentiment = SentimentChecker.check row.text := by
  induction events with
  | nil =>
    intro db h
    simpa [runAdds] using h
  | cons e rest ih =>
    intro db h
    have hstep : ∀ row ∈ ((add_review e.ok db e.text e.now).1).rows,
        row.sentiment = SentimentChecker.check row.text := by
      rw [add_review_rows]
      cases e.ok with
      | false => simpa using h
      | true =>
        intro row hrow
        simp only [if_true, List.mem_append, List.mem_singleton] at hrow
        rcases hrow with h1 | h2
        · exact h row h1
        · subst h2; rfl
    have hfold : runAdds db (e :: rest)
        = runAdds ((add_review e.ok db e.text e.now).1) rest := rfl
    rw [hfold]
    exact ih _ hstep

/-- Shared lemma: the explicit shape of the state after a run of committed
appends. -/
theorem runAddsOk_eq (events : List (List Char × String)) :
    ∀ db : DB, runAddsOk db events =
      { rows := db.rows ++ buildRows db.seq events,
        seq := db.seq + events.length } := by
  induction events with
  | nil =>
    intro db
    simp [runAddsOk, buildRows]
  | cons e rest ih =>
    intro db
    have hfold : runAddsOk db (e :: rest)
        = runAddsOk ((add_review true db e.1 e.2).1) rest := rfl
    rw [hfold, ih]
    cases e with
    | mk t n =>
      simp only [add_review_true_eq, buildRows, DB.mk.injEq, List.append_assoc,
        List.singleton_append, List.length_cons]
      exact ⟨trivial, by omega⟩

/-- Shared lemma: a run of committed appends produces one row per event. -/
theorem buildRows_length (events : List (List Char × String)) :
    ∀ seq, (buildRows seq events).length = events.length := by
  induction events with
  | nil => intro seq; rfl
  | cons e rest ih =>
    intro seq
    cases e with
    | mk t n => simp [buildRows, ih]

/-- Shared lemma: the row a run of committed appends stores for its `i`-th
event. -/
theorem buildRows_getElem? (events : List (List Char × String)) :
    ∀ seq i t n, events[i]? = some (t, n) →
      (buildRows seq events)[i]? =
        some ({ id := seq + i + 1, text := t,
                sentiment := SentimentChecker.check t, created_at := n } : Row) := by
  induction events with
  | nil =>
    intro seq i t n h
    simp at h
  | cons e rest ih =>
    intro seq i t n h
    cases e with
    | mk t' n' =>
      cases i with
      | zero =>
        simp only [List.getElem?_cons_zero, Option.some.injEq, Prod.mk.injEq] at h
        obtain ⟨rfl, rfl⟩ := h
        simp [buildRows]
      | succ j =>
        have hr : rest[j]? = some (t, n) := by simpa using h
        have := ih (seq + 1) j t n hr
        rw [show seq + (j + 1) + 1 = seq + 1 + j + 1 from by omega]
        simpa [buildRows] using this

/-- Shared lemma: every row a run of committed appends builds has an identity
strictly above the sequence value the run started from. -/
theorem buildRows_id_gt (events : List (List Char × String)) :
    ∀ seq, ∀ r ∈ buildRows seq events, seq < r.id := by
  induction events with
  | nil =>
    intro seq r hr
    simp [buildRows] at hr
  | cons e rest ih =>
    intro seq r hr
    cases e with
    | mk t n =>
      simp only [buildRows, List.mem_cons] at hr
      rcases hr with rfl | hr
      · simp
      · have := ih (seq + 1) r hr
        omega

/-- Shared lemma: the identities of the rows built by a run of committed
appends are strictly increasing. -/
theorem buildRows_pairwise (events : List (List Char × String)) :
    ∀ seq, List.Pairwise (· < ·) ((buildRows seq events).map Row.id) := by
  induction events with
  | nil => intro seq; simp [buildRows]
  | cons e rest ih =>
    intro seq
    cases e with
    | mk t n =>
      simp only [buildRows, List.map_cons, List.pairwise_cons]
      constructor
      · intro b hb
        simp only [List.mem_map] at hb
        obtain ⟨r, hr, rfl⟩ := hb
        have := buildRows_id_gt rest (seq + 1) r hr
        omega
      · exact ih (seq + 1)

/-- Shared lemma: filtering rows by sentiment commutes with the row-to-review
conversion, since the conversion keeps the sentiment field. -/
theorem filter_map_rows (rows : List Row) (label : String) :
    (rows.filter (fun r => r.sentiment == label)).map rowToReview
      = (rows.map rowToReview).filter (fun r => r.sentiment == label) := by
  induction rows with
  | nil => rfl
  | cons r rest ih =>
    cases h : (r.sentiment == label) with
    | false => simp [List.filter_cons, rowToReview, h, ih]
    | true => simp [List.filter_cons, rowToReview, h, ih]

/-! Claim theorems. -/

/-- C1: for every input text, `check` lowercases the whole text, sums the
non-overlapping substring occurrence counts of every positive marker to get
`posCount` and of every negative marker to get `negCount`, and returns
`"positive"` if `posCount > negCount`, `"negative"` if
`negCount > posCount`, and `"neutral"` otherwise (including when both counts
are zero). -/
theorem classify_decision_rule (text : List Char) :
    SentimentChecker.check text =
      if posCount text > negCount text then "positive"
      else if negCount text > posCount text then "negative"
      else "neutral" :=
  check_eq_counts text

/-- C2: every record reachable by runs of the service's add operation stores
the classifier's output on its stored text, and an add call never edits an
existing row — the previous rows survive unchanged as the front of the new
row list. -/
theorem stored_sentiment_invariant (events : List AddEvent) :
    (∀ row ∈ (runAdds init_db events).rows,
      row.sentiment = SentimentChecker.check row.text)
    ∧ (∀ (ok : Bool) (db : DB) (text : List Char) (now : String),
        ∃ tail, ((add_review ok db text now).1).rows = db.rows ++ tail) := by
  constructor
  · exact runAdds_sentiment events init_db (by simp [init_db])
  · intro ok db text now
    rw [add_review_rows]
    cases ok with
    | false => exact ⟨[], by simp⟩
    | true => exact ⟨_, rfl⟩

/-- C2 witness: the single row stored by one committed add call carries the
classifier's sentiment for its text. -/
theorem stored_sentiment_invariant_witness :
    (Row.mk 1 ['х', 'о', 'р', 'о', 'ш'] "positive" "t").sentiment
      = SentimentChecker.check (Row.mk 1 ['х', 'о', 'р', 'о', 'ш'] "positive" "t").text :=
  (stored_sentiment_invariant [⟨['х', 'о', 'р', 'о', 'ш'], "t", true⟩]).1 _ (by decide)

/-- C3: on a store whose row identities do not exceed the sequence value,
a successful add returns identity `seq + 1`, strictly above every stored
identity; a second add of the same text returns `seq + 2`: the two records
are distinct, with distinct ids but identical text and sentiment. -/
theorem add_assigns_fresh_increasing_ids (db : DB)
    (hWF : ∀ row ∈ db.rows, row.id ≤ db.seq)
    (text : List Char) (now1 now2 : String) (db1 db2 : DB) (r1 r2 : Review)
    (h1 : add_review true db text now1 = (db1, Except.ok r1))
    (h2 : add_review true db1 text now2 = (db2, Except.ok r2)) :
    r1.id = some (db.seq + 1)
    ∧ (∀ row ∈ db.rows, row.id < db.seq + 1)
    ∧ r2.id = some (db.seq + 2)
    ∧ r1.id ≠ r2.id
    ∧ r1 ≠ r2
    ∧ r1.text = r2.text
    ∧ r1.sentiment = r2.sentiment := by
  rw [add_review_true_eq] at h1
  obtain ⟨hdb1, hr1⟩ := Prod.mk.injEq .. ▸ h1
  rw [add_review_true_eq] at h2
  obtain ⟨hdb2, hr2⟩ := Prod.mk.injEq .. ▸ h2
  have hr1' : r1 = { text := text, sentiment := SentimentChecker.check text,
                     created_at := now1, id := some (db.seq + 1) } := by
    exact (Except.ok.inj hr1).symm
  have hseq1 : db1.seq = db.seq + 1 := by rw [← hdb1]
  have hr2' : r2 = { text := text, sentiment := SentimentChecker.check text,
                     created_at := now2, id := some (db1.seq + 1) } := by
    exact (Except.ok.inj hr2).symm
  subst hr1' hr2'
  refine ⟨rfl, ?_, ?_, ?_, ?_, rfl, rfl⟩
  · intro row hrow
    have := hWF row hrow
    omega
  · simp [hseq1]
  · simp [hseq1]
  · intro hcontra
    have := congrArg Review.id hcontra
    simp [hseq1] at this

/-- C3 witness: two committed adds of the same text on a fresh store get ids
1 and 2, distinct records, identical text and sentiment. -/
theorem add_assigns_fresh_increasing_ids_witness :
    (Review.mk ['a'] "neutral" "t1" (some 1)).id = some (init_db.seq + 1)
    ∧ (Review.mk ['a'] "neutral" "t2" (some 2)).id = some (init_db.seq + 2)
    ∧ (Review.mk ['a'] "neutral" "t1" (some 1)).id
        ≠ (Review.mk ['a'] "neutral" "t2" (some 2)).id
    ∧ Review.mk ['a'] "neutral" "t1" (some 1)
        ≠ Review.mk ['a'] "neutral" "t2" (some 2)
    ∧ (Review.mk ['a'] "neutral" "t1" (some 1)).text
        = (Review.mk ['a'] "neutral" "t2" (some 2)).text
    ∧ (Review.mk ['a'] "neutral" "t1" (some 1)).sentiment
        = (Review.mk ['a'] "neutral" "t2" (some 2)).sentiment := by
  have h := add_assigns_fresh_increasing_ids init_db (by simp [init_db]) ['a'] "t1" "t2"
      (DB.mk [Row.mk 1 ['a'] "neutral" "t1"] 1)
      (DB.mk [Row.mk 1 ['a'] "neutral" "t1", Row.mk 2 ['a'] "neutral" "t2"] 2)
      (Review.mk ['a'] "neutral" "t1" (some 1))
      (Review.mk ['a'] "neutral" "t2" (some 2))
      rfl rfl
  exact ⟨h.1, h.2.2.1, h.2.2.2.1, h.2.2.2.2.1, h.2.2.2.2.2.1, h.2.2.2.2.2.2⟩

/-- C4: after N committed appends on a fresh store, `fetch_all` returns
exactly N records, the i-th holding the i-th submitted text, its classified
sentiment, its timestamp and identity `i + 1`, and the stored identities are
strictly increasing (insertion order). -/
theorem fetch_all_after_appends (events : List (List Char × String)) :
    (fetch_all (runAddsOk init_db events)).length = events.length
    ∧ (∀ i t n, events[i]? = some (t, n) →
        (fetch_all (runAddsOk init_db events))[i]? =
          some ({ text := t, sentiment := SentimentChecker.check t,
                  created_at := n, id := some (i + 1) } : Review))
    ∧ List.Pairwise (· < ·) (((runAddsOk init_db events).rows).map Row.id) := by
  have hrun := runAddsOk_eq events init_db
  refine ⟨?_, ?_, ?_⟩
  · rw [hrun]
    simp [fetch_all, init_db, buildRows_length]
  · intro i t n h
    rw [hrun]
    have hb := buildRows_getElem? events 0 i t n h
    simp only [fetch_all, init_db, List.nil_append]
    rw [List.getElem?_map, hb]
    simp [rowToReview]
  · rw [hrun]
    simpa [init_db] using buildRows_pairwise events 0

/-- C4 witness: one committed append, then `fetch_all` returns that single
record with identity 1. -/
theorem fetch_all_after_appends_witness :
    ([((['a'] : List Char), "t")])[0]? = some (['a'], "t")
    ∧ (fetch_all (runAddsOk init_db [(['a'], "t")]))[0]? =
        some ({ text := ['a'], sentiment := "neutral", created_at := "t",
                id := some 1 } : Review) :=
  ⟨by decide, (fetch_all_after_appends [(['a'], "t")]).2.1 0 ['a'] "t" (by decide)⟩

/-- C5: `fetch_by_sentiment` returns exactly the `fetch_all` records whose
sentiment equals the label, in the same relative order (it is the order-
preserving filter of `fetch_all`), and a label matching no stored sentiment
yields the empty list rather than failing. -/
theorem fetch_by_sentiment_is_filter (db : DB) (label : String) :
    fetch_by_sentiment db label
      = (fetch_all db).filter (fun r => r.sentiment == label)
    ∧ ((∀ r ∈ fetch_all db, r.sentiment ≠ label) →
        fetch_by_sentiment db label = []) := by
  constructor
  · exact filter_map_rows db.rows label
  · intro hnone
    have hrows : ∀ r ∈ db.rows, ¬((fun r : Row => r.sentiment == label) r = true) := by
      intro r hr
      have := hnone (rowToReview r) (List.mem_map_of_mem _ hr)
      simpa [rowToReview] using this
    simp [fetch_by_sentiment, List.filter_eq_nil_iff.mpr hrows]

/-- C5 witness: on a store holding one neutral record, the label "unknown"
fetches the empty list. -/
theorem fetch_by_sentiment_is_filter_witness :
    fetch_by_sentiment (DB.mk [Row.mk 1 ['a'] "neutral" "t"] 1) "unknown" = [] :=
  (fetch_by_sentiment_is_filter (DB.mk [Row.mk 1 ['a'] "neutral" "t"] 1)
    "unknown").2 (by decide)

/-- C6: the service's list operation returns `fetch_all` for the empty-string
filter and `fetch_by_sentiment` for every non-empty filter string, with no
validation of the filter against the label enumeration. -/
theorem list_filter_dispatch (db : DB) (s : String) :
    get_reviews_by_sentiment db "" = fetch_all db
    ∧ (s ≠ "" → get_reviews_by_sentiment db s = fetch_by_sentiment db s) := by
  constructor
  · simp [get_reviews_by_sentiment]
  · intro hs
    simp [get_reviews_by_sentiment, hs]

/-- C6 witness: the dispatch on a fresh store with the non-label-validated
filter "positive". -/
theorem list_filter_dispatch_witness :
    ("positive" : String) ≠ ""
    ∧ get_reviews_by_sentiment init_db "" = fetch_all init_db
    ∧ get_reviews_by_sentiment init_db "positive"
        = fetch_by_sentiment init_db "positive" :=
  ⟨by decide, (list_filter_dispatch init_db "positive").1,
   (list_filter_dispatch init_db "positive").2 (by decide)⟩

/-- C7: `check` always returns one of the three labels, a text with zero
marker counts is classified "neutral", and the empty text is classified
"neutral". -/
theorem classify_total_neutral_default :
    (∀ text : List Char,
      (SentimentChecker.check text = "positive"
        ∨ SentimentChecker.check text = "negative"
        ∨ SentimentChecker.check text = "neutral")
      ∧ (posCount text = 0 → negCount text = 0 →
          SentimentChecker.check text = "neutral"))
    ∧ SentimentChecker.check [] = "neutral" := by
  constructor
  · intro text
    constructor
    · rw [check_eq_counts]
      split
      · exact Or.inl rfl
      · split
        · exact Or.inr (Or.inl rfl)
        · exact Or.inr (Or.inr rfl)
    · intro hp hn
      rw [check_eq_counts, hp, hn]
      simp
  · decide

/-- C7 witness: the marker-free text "fine" has zero counts and is classified
"neutral". -/
theorem classify_total_neutral_default_witness :
    posCount ['f', 'i', 'n', 'e'] = 0 ∧ negCount ['f', 'i', 'n', 'e'] = 0
    ∧ SentimentChecker.check ['f', 'i', 'n', 'e'] = "neutral" :=
  ⟨by decide, by decide,
   (classify_total_neutral_default.1 ['f', 'i', 'n', 'e']).2 (by decide) (by decide)⟩

/-- C8: when the durable medium does not commit, `insert` leaves the store
(rows and identity sequence) unchanged and returns the storage error, and
`add_review` returns that same store and surfaces the repository's outcome
unchanged, with no retry. -/
theorem append_failure_atomic_and_propagated (db : DB) (review : Review)
    (text : List Char) (now : String) :
    insert false db review = (db, Except.error StorageError.unavailable)
    ∧ add_review false db text now = (db, Except.error StorageError.unavailable)
    ∧ (add_review false db text now).2
        = (insert false db { text := text, sentiment := SentimentChecker.check text,
                             created_at := now }).2 :=
  ⟨rfl, rfl, rfl⟩

/-- C9 counterexample: classification does not commute with swapping the two
halves of a concatenation, because a marker occurrence can span the seam:
"пло" ++ "хо" contains the negative marker "плохо" while "хо" ++ "пло" does
not. -/
theorem classify_concat_not_commutative :
    ¬ ∀ a b : List Char,
        SentimentChecker.check (a ++ b) = SentimentChecker.check (b ++ a) := by
  intro h
  have hx := h ['п', 'л', 'о'] ['х', 'о']
  have h1 : SentimentChecker.check (['п', 'л', 'о'] ++ ['х', 'о']) = "negative" := by
    decide
  have h2 : SentimentChecker.check (['х', 'о'] ++ ['п', 'л', 'о']) = "neutral" := by
    decide
  rw [h1, h2] at hx
  exact absurd hx (by decide)

/-- C9 amended: the label depends only on the two marker occurrence counts —
any two texts with equal positive counts and equal negative counts receive
the same label, wherever in the text the markers appear. -/
theorem classify_depends_only_on_counts (x y : List Char)
    (hp : posCount x = posCount y) (hn : negCount x = negCount y) :
    SentimentChecker.check x = SentimentChecker.check y := by
  rw [check_eq_counts, check_eq_counts, hp, hn]

/-- C9 witness: two different marker-free texts have equal counts and get the
same label. -/
theorem classify_depends_only_on_counts_witness :
    posCount ['a'] = posCount ['b', 'c']
    ∧ negCount ['a'] = negCount ['b', 'c']
    ∧ SentimentChecker.check ['a'] = SentimentChecker.check ['b', 'c'] :=
  ⟨by decide, by decide,
   classify_depends_only_on_counts ['a'] ['b', 'c'] (by decide) (by decide)⟩

/-- C10: adding the empty text never errors: the classifier labels it
"neutral" and the stored row holds the empty text with sentiment "neutral"
(the implementation classifies rather than raising a validation error). -/
theorem add_empty_text_classified_neutral (db : DB) (now : String) :
    (add_review true db [] now).2
      = Except.ok { text := [], sentiment := "neutral", created_at := now,
                    id := some (db.seq + 1) }
    ∧ ((add_review true db [] now).1).rows
      = db.rows ++ [{ id := db.seq + 1, text := [], sentiment := "neutral",
                      created_at := now }] := by
  have hneutral : SentimentChecker.check [] = "neutral" := by decide
  constructor
  · rw [add_review_true_eq]
    simp [hneutral]
  · rw [add_review_rows]
    simp [hneutral]
